import Mathlib

/-!
Verification development for the Telenot-to-MQTT bridge.

JavaScript strings are shallowly embedded as `List Char`; byte buffers as
`List Nat` (each element < 256 in practice); JavaScript `Map`s as
association lists.  Fallible JavaScript paths (runtime `TypeError`, `NaN`
propagation) are embedded as `Option`.
-/

/-! ## JS string and number helpers -/

/-- Value of a single hex digit, as accepted by `parseInt(_, 16)`. -/
def hexDigVal (c : Char) : Option Nat :=
  if c = '0' then some 0 else if c = '1' then some 1
  else if c = '2' then some 2 else if c = '3' then some 3
  else if c = '4' then some 4 else if c = '5' then some 5
  else if c = '6' then some 6 else if c = '7' then some 7
  else if c = '8' then some 8 else if c = '9' then some 9
  else if c = 'a' ∨ c = 'A' then some 10 else if c = 'b' ∨ c = 'B' then some 11
  else if c = 'c' ∨ c = 'C' then some 12 else if c = 'd' ∨ c = 'D' then some 13
  else if c = 'e' ∨ c = 'E' then some 14 else if c = 'f' ∨ c = 'F' then some 15
  else none

/-- Lowercase hex digit, as produced by JS `Number.prototype.toString(16)`. -/
def hexDigitLC (n : Nat) : Char :=
  if n = 0 then '0' else if n = 1 then '1' else if n = 2 then '2'
  else if n = 3 then '3' else if n = 4 then '4' else if n = 5 then '5'
  else if n = 6 then '6' else if n = 7 then '7' else if n = 8 then '8'
  else if n = 9 then '9' else if n = 10 then 'a' else if n = 11 then 'b'
  else if n = 12 then 'c' else if n = 13 then 'd' else if n = 14 then 'e'
  else 'f'

/-- Digits of `n` in base `b`, most significant first; structural recursion
on a fuel argument (`n + 1` steps always suffice). -/
def natDigitsAux (b : Nat) : Nat → Nat → List Char
  | 0, _ => []
  | fuel + 1, n =>
    if n < b then [hexDigitLC n]
    else natDigitsAux b fuel (n / b) ++ [hexDigitLC (n % b)]

/-- JS `(n).toString(16)` for a nonnegative integer: lowercase, no leading
zeros, `"0"` for zero. -/
def natToHexLC (n : Nat) : List Char :=
  natDigitsAux 16 (n + 1) n

/-- JS `(n).toString(2)` for a nonnegative integer. -/
def natToBinLC (n : Nat) : List Char :=
  natDigitsAux 2 (n + 1) n

/-- JS `String.prototype.padStart(w, c)`. -/
def padStart (l : List Char) (w : Nat) (c : Char) : List Char :=
  List.replicate (w - l.length) c ++ l

/-- Accumulate the value of a maximal leading run of hex digits. -/
def hexRunVal : Nat → List Char → Nat
  | acc, [] => acc
  | acc, c :: r =>
    match hexDigVal c with
    | some d => hexRunVal (16 * acc + d) r
    | none => acc

/-- JS `parseInt(s, 16)`: an optional `0x`/`0X` prefix, then the maximal
leading run of hex digits; `none` models `NaN` (no digit at all).
Leading whitespace and signs are not modelled (never present in this
program's inputs). -/
def jsParseIntHex (s : List Char) : Option Nat :=
  let body : List Char :=
    match s with
    | '0' :: 'x' :: r => r
    | '0' :: 'X' :: r => r
    | _ => s
  match body with
  | [] => none
  | c :: _ =>
    match hexDigVal c with
    | some _ => some (hexRunVal 0 body)
    | none => none

/-- JS `s.match(/.{1,2}/g)`: split into chunks of two characters, the last
chunk possibly a single character.  (The regex `.` never meets a newline in
this program's hex strings.) -/
def chunk2 : List Char → List (List Char)
  | [] => []
  | [a] => [[a]]
  | a :: b :: r => [a, b] :: chunk2 r

/-- JS `s.slice(-2)`: the last two characters (the whole string when it is
shorter than two characters). -/
def sliceLast2 (l : List Char) : List Char :=
  l.drop (l.length - 2)

/-- Sum of the `parseInt(_, 16)` values of a chunk list; `none` models a
`NaN` sum (some chunk had no leading hex digit). -/
def sumHexChunks : List (List Char) → Option Nat
  | [] => some 0
  | c :: r =>
    match jsParseIntHex c, sumHexChunks r with
    | some v, some s => some (v + s)
    | _, _ => none

/-- A JS string is falsy exactly when it is empty. -/
def jsFalsy (s : List Char) : Bool :=
  s.isEmpty

/-! ## Command encoder (`TelenotService.mjs`) -/

/-- `config.Telenot.COMMAND_SB_STATE_ON`. -/
def COMMAND_SB_STATE_ON : List Char :=
  ("680909687301050200").data

/-- `Telenot.calculateChecksum`.  Empty message yields `'00'`; on a
nonempty message the characters after the first 8 are split into hex pairs,
their values summed, and the last two characters of the hex rendering of
the sum are taken.  `none` embeds the JS runtime failure paths: a message
of length 1..8 (`match` returns `null` and `.reduce` throws) and a
non-hex chunk (`NaN` propagation); neither is reachable from
`createCommandMessage`. -/
def calculateChecksum (message : List Char) : Option (List Char) :=
  if message.isEmpty then some (("00").data)
  else
    match chunk2 (message.drop 8) with
    | [] => none
    | chunks =>
      match sumHexChunks chunks with
      | some s => some (sliceLast2 (natToHexLC s))
      | none => none

/-- `Telenot.createCommandMessage(address, baseHex, commandHex)`.
Returns the literal string `'error'` when the address is outside `[1, 8]`
(the JS code logs and returns `'error'`), otherwise the command frame. -/
def createCommandMessage (address : Int) (baseHex : Nat) (commandHex : List Char) :
    Option (List Char) :=
  if address < 1 ∨ address > 8 then some (("error").data)
  else
    let hex := natToHexLC (baseHex + 8 * address.toNat)
    let msg := COMMAND_SB_STATE_ON ++ '0' :: hex ++ ("02").data ++ commandHex
    match calculateChecksum msg with
    | some cs => some (msg ++ cs ++ ("16").data)
    | none => none

/-- `Telenot.hexToBytes`: split into hex pairs and `parseInt` each; `none`
is a `NaN` entry. -/
def hexToBytes (hex : List Char) : List (Option Nat) :=
  (chunk2 hex).map jsParseIntHex

/-- Node `Buffer.from` coerces `NaN` array entries to byte `0`. -/
def bufferFromJS (l : List (Option Nat)) : List Nat :=
  l.map (fun o => o.getD 0)

/-- Outcome of `Telenot.sendCommand`. -/
inductive SendOutcome where
  | rejectedInvalid
  | rejectedNotConnected
  | sent (bytes : List Nat)
  deriving DecidableEq, Repr

/-- `Telenot.sendCommand(command)` with the socket connection status as a
parameter: the falsy-command guard, then the connection check, then the
write of `Buffer.from(hexToBytes(command))`. -/
def sendCommand (command : List Char) (connected : Bool) : SendOutcome :=
  if jsFalsy command then .rejectedInvalid
  else if !connected then .rejectedNotConnected
  else .sent (bufferFromJS (hexToBytes command))

/-- The four `(commandBase, commandCode)` constant pairs used by
`disarmArea`, `intArmArea`, `extArmArea`, `resetArmArea`. -/
def commandPairs : List (Nat × List Char) :=
  [(1320, ("E1").data), (1321, ("62").data), (1322, ("61").data), (1323, ("52").data)]

/-- Exactly two hex digits for a value below 256 (the spec's "rendered as
exactly two hex digits"). -/
def twoHexDigitsLC (n : Nat) : List Char :=
  [hexDigitLC (n / 16 % 16), hexDigitLC (n % 16)]

/-- Sum of the byte values of the hex pairs of a string (spec's checksum
summation; unparseable pairs cannot occur in command frames). -/
def specPairSum (l : List Char) : Nat :=
  ((chunk2 l).map (fun p => (jsParseIntHex p).getD 0)).sum

/-- Modelled from the spec: command-frame layout as amended — the fixed
9-byte preamble, an address field of four hex characters (`'0'` followed by
the 3-digit hex rendering of `base + 8·address`), `02`, the command code,
a two-digit checksum equal modulo 256 to the pair sum of everything after
the first 8 hex characters, and the terminator `16`. -/
def specCommandFrame (address : Nat) (base : Nat) (code : List Char) : List Char :=
  let addrField := '0' :: natToHexLC (base + 8 * address)
  let body := COMMAND_SB_STATE_ON ++ addrField ++ ("02").data ++ code
  body ++ twoHexDigitsLC (specPairSum (body.drop 8) % 256) ++ ("16").data

/-- Modelled from the spec: the frame shape literally asserted by the
claim — a single address *byte* (two hex characters) whose value is
`base + 8·address`. -/
def c1ClaimedShape (address : Nat) (base : Nat) (code : List Char) (m : List Char) : Prop :=
  ∃ addrByte cs : List Char,
    addrByte.length = 2 ∧
    jsParseIntHex addrByte = some (base + 8 * address) ∧
    cs.length = 2 ∧
    m = COMMAND_SB_STATE_ON ++ addrByte ++ ("02").data ++ code ++ cs ++ ("16").data

/-- The concrete frame produced for `disarmArea` on area 1. -/
def c1Frame₀ : List Char :=
  ("680909687301050200053002E19316").data

/-! ## Claims C1 and C2 -/

/-- C1 (amended): for every areaAddress in `[1,8]` and each of the four
operation constant pairs, `createCommandMessage` returns the frame made of
the 9-byte preamble `680909687301050200`, an address *field* of four hex
characters (`'0'` followed by the 3-digit hex rendering of
`base + areaAddress·8` — not a single byte, since that value exceeds 255),
then `02`, the command code, a checksum of exactly two hex digits equal to
the modulo-256 pair sum of everything after the first 8 hex characters,
and the terminator `16`. -/
theorem C1_frame_layout (a : Int) (h1 : 1 ≤ a) (h8 : a ≤ 8)
    (base : Nat) (code : List Char) (hp : (base, code) ∈ commandPairs) :
    createCommandMessage a base code = some (specCommandFrame a.toNat base code) ∧
    ('0' :: natToHexLC (base + 8 * a.toNat)).length = 4 := by
  interval_cases a <;> fin_cases hp <;> exact ⟨by decide, by decide⟩

/-- Witness for C1 at areaAddress 3 with the arm-internal pair. -/
theorem C1_frame_layout_witness :
    createCommandMessage 3 1321 (("62").data) =
      some (specCommandFrame ((3 : Int)).toNat 1321 (("62").data)) ∧
    ('0' :: natToHexLC (1321 + 8 * ((3 : Int)).toNat)).length = 4 :=
  C1_frame_layout 3 (by decide) (by decide) 1321 (("62").data) (by decide)

/-- C1 counterexample: for areaAddress 1 and the disarm pair the produced
frame does not have the claimed shape with a single address byte of value
`1320 + 1·8 = 1328` — the frame is 30 hex characters, the claimed shape
only 28. -/
theorem C1_claim_counterexample :
    createCommandMessage 1 1320 (("E1").data) = some c1Frame₀ ∧
    ¬ c1ClaimedShape 1 1320 (("E1").data) c1Frame₀ := by
  refine ⟨by decide, ?_⟩
  rintro ⟨ab, cs, hab, -, hcs, heq⟩
  have h30 : c1Frame₀.length = 30 := rfl
  rw [heq] at h30
  have e1 : COMMAND_SB_STATE_ON.length = 18 := rfl
  have e2 : ((("02").data) : List Char).length = 2 := rfl
  have e3 : ((("E1").data) : List Char).length = 2 := rfl
  have e4 : ((("16").data) : List Char).length = 2 := rfl
  simp only [List.length_append, e1, e2, e3, e4, hab, hcs] at h30
  omega

/-- C2: evaluating the encoder at the failing input `areaAddress = 0`.
`createCommandMessage` yields the literal string `'error'`, which is a
truthy JS value, so `sendCommand`'s `if (!command)` guard does not reject
it and — with the socket connected — the bytes obtained by leniently
hex-parsing `'error'` (`0x0e 0x00 0x00`) are written to the TCP socket,
contradicting the claim that no send is attempted. -/
theorem C2_invalid_address_is_sent :
    createCommandMessage 0 1320 (("E1").data) = some (("error").data) ∧
    jsFalsy (("error").data) = false ∧
    sendCommand (("error").data) true = .sent [14, 0, 0] := by
  exact ⟨by decide, by decide, by decide⟩

/-! ## Frame classifier (`SocketHandler.mjs`)

The JS classifier is a fixed chain of anchored regular expressions over the
hex string.  Each regex is a sequence of literal characters, character
classes, and `.` wildcards, optionally followed by `.*16$`; we embed that
pattern shape directly. -/

/-- The message types the classifier can produce (`TelenotMsgType`; the
discovery-only tags are never produced by `getMsgType` and are omitted). -/
inductive MsgType where
  | SEND_NORM | MP | SB | CONF_ACK
  | SYS_INT_ARMED | SYS_EXT_ARMED | SYS_DISARMED | ALARM
  | INTRUSION | BATTERY_MALFUNCTION | POWER_OUTAGE | OPTICAL_FLASHER_MALFUNCTION
  | HORN_1_MALFUNCTION | HORN_2_MALFUNCTION | COM_FAULT | RESTART
  | INVALID | SEND_NDAT
  deriving DecidableEq, Repr

/-- One position of an anchored regex: a literal character, a character
class, or the `.` wildcard. -/
inductive PatItem where
  | lit (c : Char)
  | cls (cs : List Char)
  | dot
  deriving DecidableEq, Repr

/-- JS regex `.` matches every character except the four line terminators. -/
def jsDotOk (c : Char) : Bool :=
  c ≠ '\n' && c ≠ '\r' && c ≠ ' ' && c ≠ ' '

def itemMatch : PatItem → Char → Bool
  | .lit a, c => a = c
  | .cls cs, c => cs.contains c
  | .dot, c => jsDotOk c

/-- `regex.test` for an `^`-anchored fixed-length pattern: the pattern must
match an initial segment of the string. -/
def matchItems : List PatItem → List Char → Bool
  | [], _ => true
  | _ :: _, [] => false
  | i :: p, c :: s => itemMatch i c && matchItems p s

/-- The `.*16$` part of a pattern, applied to what remains after the fixed
prefix: the last two characters are `16` and everything before them is
matched by `.`. -/
def dotStarTail16 (rest : List Char) : Bool :=
  (rest.take (rest.length - 2)).all jsDotOk &&
    decide (rest.drop (rest.length - 2) = ("16").data)

/-- `regex.test` for an `^P.*16$` pattern: `P` matches the start, the last
two characters are `16`, and everything in between is matched by `.`. -/
def matchDotStarEnd16 (p : List PatItem) (s : List Char) : Bool :=
  matchItems p s && dotStarTail16 (s.drop p.length)

def litPat (s : String) : List PatItem := s.data.map .lit

/-- The class `[0-9A-Fa-f]`. -/
def hexCls : PatItem := .cls (("0123456789ABCDEFabcdef").data)

/-- The class `[c|C]` (matching `c`, `C`, or a literal `|`). -/
def cCls : PatItem := .cls (("cC|").data)

/-- The class `[e|E]`. -/
def eCls : PatItem := .cls (("eE|").data)

/-- The class `[A|a]`. -/
def aCls : PatItem := .cls (("Aa|").data)

/-- The class `[F|f]`. -/
def fCls : PatItem := .cls (("Ff|").data)

def sendNormPat : List PatItem := litPat ("6802026840024216")

def confAckPat : List PatItem := litPat ("6802026800020216")

/-- Prefix of `/^68[0-9A-Fa-f]{4}687302[0-9A-Fa-f]{2}2400000001.*16$/`. -/
def mpPatPre : List PatItem :=
  litPat ("68") ++ [hexCls, hexCls, hexCls, hexCls] ++ litPat ("687302") ++
    [hexCls, hexCls] ++ litPat ("2400000001")

/-- Prefix of `/^68[0-9A-Fa-f]{4}687302[0-9A-Fa-f]{2}2400050002.*16$/`. -/
def sbPatPre : List PatItem :=
  litPat ("68") ++ [hexCls, hexCls, hexCls, hexCls] ++ litPat ("687302") ++
    [hexCls, hexCls] ++ litPat ("2400050002")

def sysIntPat : List PatItem :=
  litPat ("682") ++ [cCls] ++ litPat ("2") ++ [cCls] ++ litPat ("68730205020005310162")

def sysExtPat : List PatItem :=
  litPat ("682") ++ [cCls] ++ litPat ("2") ++ [cCls] ++ litPat ("68730205020005320161")

def sysDisPat : List PatItem :=
  litPat ("682") ++ [cCls] ++ litPat ("2") ++ [cCls] ++ litPat ("687302050200053001") ++
    [eCls] ++ litPat ("1")

def alarmGenPat : List PatItem :=
  litPat ("682") ++ [cCls] ++ litPat ("2") ++ [cCls] ++ litPat ("6873020502000540")

/-- `/^68[0-9A-Fa-f]{2}[0-9A-Fa-f]{2}687302050201002b/` — note the final
literal lowercase `b`. -/
def waterAlarmPat : List PatItem :=
  litPat ("68") ++ [hexCls, hexCls, hexCls, hexCls] ++ litPat ("687302050201002b")

def intrusionPat : List PatItem :=
  litPat ("682") ++ [cCls] ++ litPat ("2") ++ [cCls] ++ litPat ("687302050201001001")

def batteryPat : List PatItem :=
  litPat ("681") ++ [aCls] ++ litPat ("1") ++ [aCls] ++ litPat ("687302050200001401")

def powerPat : List PatItem :=
  litPat ("681") ++ [aCls] ++ litPat ("1") ++ [aCls] ++ litPat ("687302050200001501")

def opticalPat : List PatItem :=
  litPat ("681") ++ [aCls] ++ litPat ("1") ++ [aCls] ++ litPat ("687302050200001301")

def horn1Pat : List PatItem :=
  litPat ("681") ++ [aCls] ++ litPat ("1") ++ [aCls] ++ litPat ("687302050200001101")

def horn2Pat : List PatItem :=
  litPat ("681") ++ [aCls] ++ litPat ("1") ++ [aCls] ++ litPat ("687302050200001201")

def comFaultPat : List PatItem :=
  litPat ("681") ++ [aCls] ++ litPat ("1") ++ [aCls] ++ litPat ("687302050200001701")

/-- Prefix of
`/^68[0-9A-Fa-f]{4}687302[0-9A-Fa-f]{2}[0-9A-Fa-f]{4}([F|f]{4})0153.*16$/`. -/
def restartPatPre : List PatItem :=
  litPat ("68") ++ [hexCls, hexCls, hexCls, hexCls] ++ litPat ("687302") ++
    [hexCls, hexCls] ++ [hexCls, hexCls, hexCls, hexCls] ++ [fCls, fCls, fCls, fCls] ++
    litPat ("0153")

/-- `/^68..68730/`. -/
def ndatPat : List PatItem :=
  litPat ("68") ++ [.dot, .dot] ++ litPat ("68730")

/-- `SocketHandler.matchHexStrToMsgType`: the regex chain, in source
order. -/
def matchHexStrToMsgType (s : List Char) : Option MsgType :=
  if matchItems sendNormPat s then some .SEND_NORM
  else if matchItems confAckPat s then some .CONF_ACK
  else if matchDotStarEnd16 mpPatPre s then some .MP
  else if matchDotStarEnd16 sbPatPre s then some .SB
  else if matchItems sysIntPat s then some .SYS_INT_ARMED
  else if matchItems sysExtPat s then some .SYS_EXT_ARMED
  else if matchItems sysDisPat s then some .SYS_DISARMED
  else if matchItems alarmGenPat s then some .ALARM
  else if matchItems waterAlarmPat s then some .ALARM
  else if matchItems intrusionPat s then some .INTRUSION
  else if matchItems batteryPat s then some .BATTERY_MALFUNCTION
  else if matchItems powerPat s then some .POWER_OUTAGE
  else if matchItems opticalPat s then some .OPTICAL_FLASHER_MALFUNCTION
  else if matchItems horn1Pat s then some .HORN_1_MALFUNCTION
  else if matchItems horn2Pat s then some .HORN_2_MALFUNCTION
  else if matchItems comFaultPat s then some .COM_FAULT
  else if matchDotStarEnd16 restartPatPre s then some .RESTART
  else if matchItems ndatPat s then some .SEND_NDAT
  else none

/-- `SocketHandler.getMsgType`: the full-pattern chain, then the
`START_TO_MSG_TYPE` prefix table on `substring(0, 8)` (keys `'68020268'`
and `'682C2C68'`), then `INVALID`. -/
def getMsgType (s : List Char) : MsgType :=
  match matchHexStrToMsgType s with
  | some t => t
  | none =>
    if s.take 8 = ("68020268").data then .SEND_NORM
    else if s.take 8 = ("682C2C68").data then .MP
    else .INVALID

/-! ### Case behaviour of the classifier -/

/-- The 22 characters that can occur in a hex string. -/
def hexChars : List Char := ("0123456789abcdefABCDEF").data

/-- JS `s.toUpperCase()` (ASCII; hex strings are ASCII). -/
def upperStr (s : List Char) : List Char := s.map Char.toUpper

/-- On hex characters, matching of this item is invariant under
uppercasing. -/
def itemCaseClosed (i : PatItem) : Bool :=
  hexChars.all (fun c => itemMatch i (Char.toUpper c) == itemMatch i c)

theorem itemMatch_upper {i : PatItem} (hi : itemCaseClosed i = true) {c : Char}
    (hc : c ∈ hexChars) : itemMatch i (Char.toUpper c) = itemMatch i c :=
  eq_of_beq (List.all_eq_true.mp hi c hc)

theorem matchItems_upper (p : List PatItem) (hp : p.all itemCaseClosed = true) :
    ∀ s : List Char, (∀ c ∈ s, c ∈ hexChars) →
      matchItems p (upperStr s) = matchItems p s := by
  induction p with
  | nil => intro s _; rfl
  | cons i p ih =>
    intro s hs
    simp only [List.all_cons, Bool.and_eq_true] at hp
    cases s with
    | nil => rfl
    | cons c s =>
      have hc : c ∈ hexChars := hs c (List.mem_cons_self c s)
      have hrec := ih hp.2 s (fun x hx => hs x (List.mem_cons_of_mem _ hx))
      simp only [upperStr, List.map_cons, matchItems] at hrec ⊢
      rw [itemMatch_upper hp.1 hc, hrec]

/-- If position `k` of the pattern can match no uppercased hex character,
the pattern cannot match the uppercased form of a hex string. -/
theorem matchItems_upper_false (k : Nat) :
    ∀ (p : List PatItem) (s : List Char),
      (∀ c ∈ s, c ∈ hexChars) →
      (∃ i, p.get? k = some i ∧
        hexChars.all (fun c => !(itemMatch i (Char.toUpper c))) = true) →
      matchItems p (upperStr s) = false := by
  induction k with
  | zero =>
    rintro p s hs ⟨i, hget, hi⟩
    cases p with
    | nil => simp at hget
    | cons j p =>
      have hj : j = i := by simpa using hget
      subst hj
      cases s with
      | nil => rfl
      | cons c s =>
        have hc : c ∈ hexChars := hs c (List.mem_cons_self c s)
        have hm : itemMatch j (Char.toUpper c) = false := by
          simpa using List.all_eq_true.mp hi c hc
        simp only [upperStr, List.map_cons, matchItems, hm, Bool.false_and]
  | succ k ih =>
    rintro p s hs ⟨i, hget, hi⟩
    cases p with
    | nil => simp at hget
    | cons j p =>
      cases s with
      | nil => rfl
      | cons c s =>
        have hrec := ih p s (fun x hx => hs x (List.mem_cons_of_mem _ hx))
          ⟨i, by simpa using hget, hi⟩
        simp only [upperStr, List.map_cons, matchItems] at hrec ⊢
        rw [hrec, Bool.and_false]

/-- Equality with a case-closed literal key is invariant under
uppercasing of a hex string. -/
theorem map_upper_eq_iff (key : List Char)
    (hkey : ∀ k ∈ key, ∀ c ∈ hexChars, (Char.toUpper c = k ↔ c = k)) :
    ∀ s : List Char, (∀ c ∈ s, c ∈ hexChars) → (upperStr s = key ↔ s = key) := by
  induction key with
  | nil =>
    intro s _
    cases s with
    | nil => exact Iff.rfl
    | cons c s => simp [upperStr]
  | cons k key ih =>
    intro s hs
    cases s with
    | nil => simp [upperStr]
    | cons c s =>
      have hc : c ∈ hexChars := hs c (List.mem_cons_self c s)
      have hhead := hkey k (List.mem_cons_self k key) c hc
      have hrec := ih (fun x hx => hkey x (List.mem_cons_of_mem _ hx)) s
        (fun x hx => hs x (List.mem_cons_of_mem _ hx))
      simp only [upperStr, List.map_cons, List.cons.injEq] at hrec ⊢
      rw [hhead, hrec]

theorem matchItems_short (p : List PatItem) :
    ∀ s : List Char, s.length < p.length → matchItems p s = false := by
  induction p with
  | nil => intro s h; simp at h
  | cons i p ih =>
    intro s h
    cases s with
    | nil => rfl
    | cons c s =>
      simp only [List.length_cons, Nat.succ_lt_succ_iff] at h
      simp only [matchItems, ih s h, Bool.and_false]

theorem matchDotStarEnd16_false {p : List PatItem} {s : List Char}
    (h : matchItems p s = false) : matchDotStarEnd16 p s = false := by
  unfold matchDotStarEnd16
  rw [h, Bool.false_and]

theorem allHex_jsDotOk {u : List Char} (hu : ∀ c ∈ u, c ∈ hexChars) :
    u.all jsDotOk = true := by
  apply List.all_eq_true.mpr
  intro c hc
  have h : ∀ x ∈ hexChars, jsDotOk x = true := by decide
  exact h c (hu c hc)

theorem allHex_upper_jsDotOk {u : List Char} (hu : ∀ c ∈ u, c ∈ hexChars) :
    (upperStr u).all jsDotOk = true := by
  apply List.all_eq_true.mpr
  intro c hc
  obtain ⟨d, hd, rfl⟩ := List.mem_map.mp hc
  have h : ∀ x ∈ hexChars, jsDotOk (Char.toUpper x) = true := by decide
  exact h d (hu d hd)

theorem dotStarTail16_upper {t : List Char} (ht : ∀ c ∈ t, c ∈ hexChars) :
    dotStarTail16 (upperStr t) = dotStarTail16 t := by
  unfold dotStarTail16
  rw [show (upperStr t).length = t.length from List.length_map _ _]
  rw [show (upperStr t).take (t.length - 2) = upperStr (t.take (t.length - 2)) from
    (List.map_take _ _ _).symm]
  rw [show (upperStr t).drop (t.length - 2) = upperStr (t.drop (t.length - 2)) from
    (List.map_drop _ _ _).symm]
  rw [allHex_upper_jsDotOk (fun c hc => ht c (List.take_subset _ _ hc)),
      allHex_jsDotOk (fun c hc => ht c (List.take_subset _ _ hc))]
  congr 1
  exact decide_eq_decide.mpr
    (map_upper_eq_iff (("16").data) (by decide) _ (fun c hc => ht c (List.drop_subset _ _ hc)))

theorem matchDotStarEnd16_upper (p : List PatItem) (hp : p.all itemCaseClosed = true)
    (s : List Char) (hs : ∀ c ∈ s, c ∈ hexChars) :
    matchDotStarEnd16 p (upperStr s) = matchDotStarEnd16 p s := by
  unfold matchDotStarEnd16
  rw [matchItems_upper p hp s hs,
      show (upperStr s).drop p.length = upperStr (s.drop p.length) from
        (List.map_drop _ _ _).symm,
      dotStarTail16_upper (fun c hc => hs c (List.drop_subset _ _ hc))]

/-- C6 (amended): classification of a hex string is invariant under
upper-casing **except** for two case-sensitive spots in the source — the
water/sensor-alarm pattern, whose final `2b` is literal lowercase, and the
`START_TO_MSG_TYPE` fallback key `'682C2C68'`, which requires uppercase
`C`s; and every string shorter than the 8-character prefix-table key
length is classified `INVALID`.  (The classifier is a total function by
construction, so it never raises.) -/
theorem C6_classification_case_rules :
    (∀ s : List Char, (∀ c ∈ s, c ∈ hexChars) →
        matchItems waterAlarmPat s = false →
        ¬((upperStr s).take 8 = ("682C2C68").data ∧ s.take 8 ≠ ("682C2C68").data) →
        getMsgType (upperStr s) = getMsgType s) ∧
    (∀ s : List Char, s.length < 8 → getMsgType s = .INVALID) := by
  constructor
  · intro s hs hw hmp
    have hOk : ∀ p : List PatItem, p.all itemCaseClosed = true →
        matchItems p (upperStr s) = matchItems p s :=
      fun p hp => matchItems_upper p hp s hs
    have hwU : matchItems waterAlarmPat (upperStr s) = false :=
      matchItems_upper_false 21 waterAlarmPat s hs ⟨PatItem.lit 'b', by decide, by decide⟩
    have hms : matchHexStrToMsgType (upperStr s) = matchHexStrToMsgType s := by
      unfold matchHexStrToMsgType
      rw [hOk sendNormPat (by decide), hOk confAckPat (by decide),
          matchDotStarEnd16_upper mpPatPre (by decide) s hs,
          matchDotStarEnd16_upper sbPatPre (by decide) s hs,
          hOk sysIntPat (by decide), hOk sysExtPat (by decide),
          hOk sysDisPat (by decide), hOk alarmGenPat (by decide),
          hwU, hw,
          hOk intrusionPat (by decide), hOk batteryPat (by decide),
          hOk powerPat (by decide), hOk opticalPat (by decide),
          hOk horn1Pat (by decide), hOk horn2Pat (by decide),
          hOk comFaultPat (by decide),
          matchDotStarEnd16_upper restartPatPre (by decide) s hs,
          hOk ndatPat (by decide)]
    unfold getMsgType
    rw [hms]
    cases hcase : matchHexStrToMsgType s with
    | some t => rfl
    | none =>
      have htake : (upperStr s).take 8 = upperStr (s.take 8) := (List.map_take _ _ _).symm
      have hhex8 : ∀ c ∈ s.take 8, c ∈ hexChars := fun c hc => hs c (List.take_subset _ _ hc)
      by_cases h1 : s.take 8 = ("68020268").data
      · have h1u : (upperStr s).take 8 = ("68020268").data := by rw [htake, h1]; decide
        rw [if_pos h1, if_pos h1u]
      · have h1u : ¬((upperStr s).take 8 = ("68020268").data) := by
          rw [htake]
          intro hcon
          exact h1 ((map_upper_eq_iff (("68020268").data) (by decide) (s.take 8) hhex8).mp hcon)
        rw [if_neg h1, if_neg h1u]
        by_cases h2 : s.take 8 = ("682C2C68").data
        · have h2u : (upperStr s).take 8 = ("682C2C68").data := by rw [htake, h2]; decide
          rw [if_pos h2, if_pos h2u]
        · have h2u : ¬((upperStr s).take 8 = ("682C2C68").data) := fun hcon => hmp ⟨hcon, h2⟩
          rw [if_neg h2, if_neg h2u]
  · intro s h
    have hshort : ∀ p : List PatItem, 8 ≤ p.length → matchItems p s = false :=
      fun p hp => matchItems_short p s (by omega)
    have hk : ∀ key : List Char, key.length = 8 → ¬(s.take 8 = key) := by
      intro key hklen hcon
      have hlen := congrArg List.length hcon
      rw [List.length_take, hklen] at hlen
      omega
    unfold getMsgType matchHexStrToMsgType
    rw [hshort sendNormPat (by decide), hshort confAckPat (by decide),
        matchDotStarEnd16_false (hshort mpPatPre (by decide)),
        matchDotStarEnd16_false (hshort sbPatPre (by decide)),
        hshort sysIntPat (by decide), hshort sysExtPat (by decide),
        hshort sysDisPat (by decide), hshort alarmGenPat (by decide),
        hshort waterAlarmPat (by decide),
        hshort intrusionPat (by decide), hshort batteryPat (by decide),
        hshort powerPat (by decide), hshort opticalPat (by decide),
        hshort horn1Pat (by decide), hshort horn2Pat (by decide),
        hshort comFaultPat (by decide),
        matchDotStarEnd16_false (hshort restartPatPre (by decide)),
        hshort ndatPat (by decide)]
    simp only [Bool.false_eq_true, if_false]
    rw [if_neg (hk (("68020268").data) (by decide)),
        if_neg (hk (("682C2C68").data) (by decide))]

/-- Witness for C6: case-invariance holds at the `SEND_NORM` frame, and a
2-character string is `INVALID`. -/
theorem C6_classification_case_rules_witness :
    getMsgType (upperStr (("6802026840024216").data)) =
      getMsgType (("6802026840024216").data) ∧
    getMsgType (("68").data) = .INVALID :=
  ⟨C6_classification_case_rules.1 (("6802026840024216").data)
      (by decide) (by decide) (by decide),
    C6_classification_case_rules.2 (("68").data) (by decide)⟩

/-- C6 counterexample: the hex string `682c2c6800` is classified `INVALID`
while its upper-cased form `682C2C6800` is classified `MP` (the
`START_TO_MSG_TYPE` fallback key `'682C2C68'` is compared
case-sensitively), so classification is not case-insensitive. -/
theorem C6_claim_counterexample :
    upperStr (("682c2c6800").data) = ("682C2C6800").data ∧
    getMsgType (("682c2c6800").data) = MsgType.INVALID ∧
    getMsgType (("682C2C6800").data) = MsgType.MP ∧
    MsgType.INVALID ≠ MsgType.MP := by
  exact ⟨by decide, by decide, by decide, by decide⟩

/-! ## State manager (`StateManager.mjs`) -/

/-- A sensor-catalog position (one entry of `contentConfig.positions`).
`name = none` models an entry without a `name` property; `hex` is the raw
configured string (e.g. `'0x10'`), parsed with `parseInt(_, 16)` wherever
the source does. -/
structure Position where
  hex : List Char
  name : Option (List Char)
  name_ha : List Char
  type : List Char
  topic : List Char
  location : List Char
  inverted : Bool
  deriving DecidableEq, Repr

/-- The record built in `publishState` (its `JSON.stringify` rendering is
not modelled; the claims speak about the fields). -/
structure Payload where
  id : List Char
  name : List Char
  type : List Char
  state : List Char
  location : List Char
  last_triggered : List Char
  deriving DecidableEq, Repr

/-- One `mqttHandler.publish` call. -/
structure Pub where
  topic : List Char
  payload : Payload
  deriving DecidableEq, Repr

/-- One discovery log entry (`logger.discover`; the formatted text is
abstracted to its data). -/
structure Disc where
  content : List Char
  byteIndex : Nat
  bitIndex : Nat
  hex : List Char
  deriving DecidableEq, Repr

/-- External environment of the state manager: `config.Discover` and the
MQTT sink (`true` = the publish promise resolves; on rejection the
catch-branch skips the dedup-map update). -/
structure Env where
  discover : Bool
  sink : List Char → Payload → Bool

/-- The mutable state of `StateManager`: `statesPrevious` (content name →
byte snapshot) and `lastPublishedStates` (topic → last published state). -/
structure SMState where
  statesPrevious : List (List Char × List Nat)
  lastPublishedStates : List (List Char × List Char)
  deriving DecidableEq, Repr

/-- `Map.get`. -/
def alookup {β : Type} : List (List Char × β) → List Char → Option β
  | [], _ => none
  | (k2, v) :: r, k => if k2 = k then some v else alookup r k

/-- `Map.set`. -/
def ainsert {β : Type} : List (List Char × β) → List Char → β → List (List Char × β)
  | [], k, v => [(k, v)]
  | (k2, v2) :: r, k, v =>
    if k2 = k then (k2, v) :: r else (k2, v2) :: ainsert r k v

/-- `StateManager.reverseBinary`: the 8-bit zero-padded binary rendering,
characters reversed (index 0 is the least significant bit for byte
values). -/
def reverseBinary (num : Nat) : List Char :=
  (padStart (natToBinLC num) 8 '0').reverse

/-- `StateManager.mapBinaryValue(value, inverted)`. -/
def mapBinaryValue (value : Char) (inverted : Bool) : List Char :=
  if (if inverted then value = '0' else value = '1') then ("ON").data else ("OFF").data

/-- JS truthiness of `position.name` (absent or empty is falsy). -/
def hasName (n : Option (List Char)) : Bool :=
  match n with
  | none => false
  | some s => !s.isEmpty

/-- ASCII `toLowerCase`. -/
def lowerStr (s : List Char) : List Char := s.map Char.toLower

/-- The whitespace characters relevant to `/\s/` in catalog names. -/
def isJsWs (c : Char) : Bool :=
  c = ' ' || c = '\t' || c = '\n' || c = '\r'

/-- `replace(/\s+/g, '_')`: each maximal whitespace run becomes one
underscore; the boolean tracks whether we are inside a run. -/
def replaceWsRuns : Bool → List Char → List Char
  | _, [] => []
  | inRun, c :: r =>
    if isJsWs c then
      if inRun then replaceWsRuns true r else '_' :: replaceWsRuns true r
    else c :: replaceWsRuns false r

/-- `position.name.toLowerCase().replace(/\s+/g, '_')`. -/
def slugName (s : List Char) : List Char := replaceWsRuns false (lowerStr s)

/-- Result of a state-manager call: the new state, the publish calls made
(in order), and the discovery log entries. -/
structure PSResult where
  st : SMState
  pubs : List Pub
  discs : List Disc
  deriving Repr

/-- `StateManager.publishState(position, bitValue, byteIndex, bitIndex,
contentName)`; `now` is `new Date().toISOString()` at call time. -/
def publishState (env : Env) (st : SMState) (position : Position) (bitValue : Char)
    (byteIndex bitIndex : Nat) (contentName now : List Char) : PSResult :=
  let state := mapBinaryValue bitValue position.inverted
  if alookup st.lastPublishedStates position.topic = some state then
    ⟨st, [], []⟩
  else
    let discs : List Disc :=
      if env.discover && !(hasName position.name) then
        [⟨contentName, byteIndex, bitIndex, position.hex⟩]
      else []
    if hasName position.name then
      let payload : Payload :=
        { id := slugName (position.name.getD []) ++ '_' :: position.hex
          name := position.name_ha
          type := position.type
          state := state
          location := position.location
          last_triggered := now }
      if env.sink position.topic payload then
        ⟨{ st with
            lastPublishedStates := ainsert st.lastPublishedStates position.topic state },
          [⟨position.topic, payload⟩], discs⟩
      else
        ⟨st, [⟨position.topic, payload⟩], discs⟩
    else
      ⟨st, [], discs⟩

/-- The filter at the head of `processStateChanges`: positions whose parsed
bit address lies in the changed byte's 8-bit range (a `NaN` parse compares
false). -/
def relevantPositions (positions : List Position) (byteIndex : Nat) : List Position :=
  positions.filter fun pos =>
    match jsParseIntHex pos.hex with
    | some n => decide (byteIndex * 8 ≤ n) && decide (n < (byteIndex + 1) * 8)
    | none => false

/-- The per-position loop of `processStateChanges`, threading the state.
(`reverseBinary` of a byte always has 8 characters and `bitIndex < 8`,
so the `getD` defaults are never taken.) -/
def pscLoop (env : Env) (newBinary oldBinary : List Char) (byteIndex : Nat)
    (contentName now : List Char) : List Position → SMState → PSResult
  | [], st => ⟨st, [], []⟩
  | pos :: rest, st =>
    let bitIndex := (jsParseIntHex pos.hex).getD 0 % 8
    if newBinary.getD bitIndex '0' ≠ oldBinary.getD bitIndex '0' then
      let r1 := publishState env st pos (newBinary.getD bitIndex '0') byteIndex bitIndex
        contentName now
      let r2 := pscLoop env newBinary oldBinary byteIndex contentName now rest r1.st
      ⟨r2.st, r1.pubs ++ r2.pubs, r1.discs ++ r2.discs⟩
    else
      pscLoop env newBinary oldBinary byteIndex contentName now rest st

/-- `StateManager.processStateChanges(newValue, oldValue, byteIndex,
positions, contentName)`. -/
def processStateChanges (env : Env) (st : SMState) (newValue oldValue byteIndex : Nat)
    (positions : List Position) (contentName now : List Char) : PSResult :=
  pscLoop env (reverseBinary newValue) (reverseBinary oldValue) byteIndex contentName now
    (relevantPositions positions byteIndex) st

/-- Result of `handleStateChange`; `changedBytes` records which byte
indices took the changed branch (instrumentation of the control flow, not
part of the JS return value). -/
structure HSCResult where
  st : SMState
  pubs : List Pub
  discs : List Disc
  changedBytes : List Nat
  deriving Repr

/-- The per-byte loop of `handleStateChange` for an already-seen content
area; `i` is the byte index of the head of `bytes` within the frame's byte
map (`prevMap.get(i) !== v` selects the changed branch, with
`prevMap.get(i) || 0` as the old value). -/
def hscLoop (env : Env) (prevBytes : List Nat) (positions : List Position)
    (contentName now : List Char) : Nat → List Nat → SMState → HSCResult
  | _, [], st => ⟨st, [], [], []⟩
  | i, v :: rest, st =>
    if prevBytes.get? i = some v then
      hscLoop env prevBytes positions contentName now (i + 1) rest st
    else
      let r1 := processStateChanges env st v ((prevBytes.get? i).getD 0) i positions
        contentName now
      let r2 := hscLoop env prevBytes positions contentName now (i + 1) rest r1.st
      ⟨r2.st, r1.pubs ++ r2.pubs, r1.discs ++ r2.discs, i :: r2.changedBytes⟩

/-- The per-position loop of `publishPositionStates` (first observation of
a content area: every cataloged position whose byte is present in the map
is published). -/
def ppsLoop (env : Env) (byteMap : List Nat) (contentName now : List Char) :
    List Position → SMState → PSResult
  | [], st => ⟨st, [], []⟩
  | pos :: rest, st =>
    match jsParseIntHex pos.hex with
    | none => ppsLoop env byteMap contentName now rest st
    | some n =>
      match byteMap.get? (n / 8) with
      | none => ppsLoop env byteMap contentName now rest st
      | some byteValue =>
        match (reverseBinary byteValue).get? (n % 8) with
        | none => ppsLoop env byteMap contentName now rest st
        | some bit =>
          let r1 := publishState env st pos bit (n / 8) (n % 8) contentName now
          let r2 := ppsLoop env byteMap contentName now rest r1.st
          ⟨r2.st, r1.pubs ++ r2.pubs, r1.discs ++ r2.discs⟩

/-- `StateManager.handleStateChange(byteMap, contentName, contentConfig)`:
first observation stores the snapshot and publishes initial states; a later
frame runs the changed-byte loop and then replaces the snapshot.  The byte
map is the list of byte values indexed from 0 (exactly how `decodeHex`
builds it). -/
def handleStateChange (env : Env) (st : SMState) (byteMap : List Nat)
    (contentName : List Char) (positions : List Position) (now : List Char) : HSCResult :=
  match alookup st.statesPrevious contentName with
  | none =>
    let st1 : SMState :=
      { st with statesPrevious := ainsert st.statesPrevious contentName byteMap }
    let r := ppsLoop env byteMap contentName now positions st1
    ⟨r.st, r.pubs, r.discs, []⟩
  | some prevBytes =>
    let r := hscLoop env prevBytes positions contentName now 0 byteMap st
    ⟨{ r.st with statesPrevious := ainsert r.st.statesPrevious contentName byteMap },
      r.pubs, r.discs, r.changedBytes⟩

/-- `Telenot.decodeHex`: the byte map is the frame's bytes from the content
area's offset onward (the spread of a Buffer slice yields byte numbers). -/
def decodeHexBytes (frame : List Nat) (offset : Nat) : List Nat :=
  frame.drop offset

/-- `config.Telenot.MELDEBEREICHE.offset`. -/
def MELDEBEREICHE_offset : Nat := 10

/-- The `SB` branch of `parseData`: decode at the MELDEBEREICHE offset and
hand the byte map to `handleStateChange`. -/
def processSBFrame (env : Env) (st : SMState) (frame : List Nat)
    (positions : List Position) (now : List Char) : HSCResult :=
  handleStateChange env st (decodeHexBytes frame MELDEBEREICHE_offset)
    (("MELDEBEREICHE").data) positions now

/-- `Buffer.toString('hex')`: lowercase hex of each byte. -/
def bufToHexStr (bytes : List Nat) : List Char :=
  (bytes.map fun b => [hexDigitLC (b / 16 % 16), hexDigitLC (b % 16)]).flatten

/-! ## Claim C3 -/

/-- The cataloged position for the C3 scenario: bit address `0x10` = 16
(byte 2, bit 0 of the MELDEBEREICHE byte map), `inverted`, named. -/
def c3Position : Position :=
  ⟨("0x10").data, some (("Sensor").data), ("Sensor HA").data, ("magnetkontakt").data,
    ("t3").data, ("Flur").data, true⟩

def c3Catalog : List Position := [c3Position]

/-- Discovery off; the MQTT sink resolves. -/
def c3Env : Env := ⟨false, fun _ _ => true⟩

/-- An `SB`-classified frame whose data byte at byte-map index 2 is `0x01`
(the cataloged bit reads `'1'`). -/
def c3F1 : List Nat :=
  [0x68, 0x05, 0x05, 0x68, 0x73, 0x02, 0x05, 0x24, 0x00, 0x05, 0x00, 0x02, 0x01, 0x16]

/-- The same frame with exactly one payload bit flipped (`0x01 → 0x00`). -/
def c3F2 : List Nat :=
  [0x68, 0x05, 0x05, 0x68, 0x73, 0x02, 0x05, 0x24, 0x00, 0x05, 0x00, 0x02, 0x00, 0x16]

/-- C3 counterexample: both frames are SB-classified; the first stores the
snapshot and publishes `OFF` (bit `'1'`, inverted).  Feeding the second
frame — exactly one flipped bit at a cataloged inverted position whose
previously stored bit is `'1'` — produces exactly one publish, but its
state is `"ON"`, not the `"OFF"` the claim asserts (consistently with the
inversion rule the claim itself quotes). -/
theorem C3_claim_counterexample :
    getMsgType (bufToHexStr c3F1) = MsgType.SB ∧
    getMsgType (bufToHexStr c3F2) = MsgType.SB ∧
    (let r1 := processSBFrame c3Env ⟨[], []⟩ c3F1 c3Catalog (("T1").data)
     let r2 := processSBFrame c3Env r1.st c3F2 c3Catalog (("T2").data)
     r1.pubs.map (fun p => p.payload.state) = [("OFF").data] ∧
     r2.pubs.length = 1 ∧
     r2.pubs.map (fun p => (p.topic, p.payload.state)) = [((("t3").data), ("ON").data)] ∧
     ("ON").data ≠ ("OFF").data) := by
  exact ⟨by decide, by decide, by decide, by decide, by decide, by decide⟩

/-- C3 (amended): feeding the SB frame with the single flipped bit — a
cataloged position with `inverted = true` and previously stored bit `'1'` —
results in exactly one publish to that position's topic, whose payload
carries state `"ON"` (per the rule: ON exactly when (inverted and bit '0')
or (not inverted and bit '1')) and whose `last_triggered` field is the
ISO timestamp taken at publish time. -/
theorem C3_sb_flip_publishes_on (now1 now2 : List Char) :
    (let r1 := processSBFrame c3Env ⟨[], []⟩ c3F1 c3Catalog now1
     let r2 := processSBFrame c3Env r1.st c3F2 c3Catalog now2
     r1.pubs = [⟨("t3").data,
        ⟨("sensor_0x10").data, ("Sensor HA").data, ("magnetkontakt").data,
          ("OFF").data, ("Flur").data, now1⟩⟩] ∧
     r2.pubs = [⟨("t3").data,
        ⟨("sensor_0x10").data, ("Sensor HA").data, ("magnetkontakt").data,
          ("ON").data, ("Flur").data, now2⟩⟩] ∧
     r2.changedBytes = [2]) ∧
    getMsgType (bufToHexStr c3F2) = MsgType.SB := by
  exact ⟨⟨rfl, rfl, rfl⟩, by decide⟩

/-! ## Claim C5 -/

theorem alookup_ainsert_self {β : Type} (l : List (List Char × β)) (k : List Char) (v : β) :
    alookup (ainsert l k v) k = some v := by
  induction l with
  | nil => simp [ainsert, alookup]
  | cons p r ih =>
    obtain ⟨k2, v2⟩ := p
    by_cases h : k2 = k
    · simp [ainsert, alookup, h]
    · simp [ainsert, alookup, h, ih]

/-- `publishState` when the topic's recorded state differs: with a named
position and a resolving sink, exactly one publish happens and the dedup
map records the new state. -/
theorem publishState_fresh (env : Env) (st : SMState) (pos : Position) (b : Char)
    (byteI bitI : Nat) (content now : List Char)
    (hname : hasName pos.name = true)
    (hfresh : ¬(alookup st.lastPublishedStates pos.topic =
      some (mapBinaryValue b pos.inverted)))
    (hsink : ∀ p : Payload, env.sink pos.topic p = true) :
    (publishState env st pos b byteI bitI content now).pubs.length = 1 ∧
    (publishState env st pos b byteI bitI content now).st.lastPublishedStates =
      ainsert st.lastPublishedStates pos.topic (mapBinaryValue b pos.inverted) := by
  unfold publishState
  rw [if_neg hfresh, hname]
  simp [hsink]

/-- `publishState` when the topic's recorded state already equals the
computed state: nothing happens. -/
theorem publishState_dedup (env : Env) (st : SMState) (pos : Position) (b : Char)
    (byteI bitI : Nat) (content now : List Char)
    (h : alookup st.lastPublishedStates pos.topic = some (mapBinaryValue b pos.inverted)) :
    publishState env st pos b byteI bitI content now = ⟨st, [], []⟩ := by
  unfold publishState
  rw [if_pos h]

/-- C5 counterexample: a cataloged named position whose topic already has
`"ON"` recorded in `lastPublishedStates`; invoking `publishState` twice in
a row with the same computed state `"ON"` results in zero publish calls,
not exactly one — the claim's count only holds from a fresh topic. -/
theorem C5_claim_counterexample :
    (let env : Env := ⟨false, fun _ _ => true⟩
     let pos : Position :=
       ⟨("0x10").data, some (("Sensor").data), ("S").data, ("mk").data,
         ("t5").data, ("Flur").data, false⟩
     let st : SMState := ⟨[], [((("t5").data), ("ON").data)]⟩
     let r1 := publishState env st pos '1' 2 0 (("MELDEBEREICHE").data) (("T1").data)
     let r2 := publishState env r1.st pos '1' 2 0 (("MELDEBEREICHE").data) (("T2").data)
     (r1.pubs ++ r2.pubs).length = 0) ∧ (0 : Nat) ≠ 1 := by
  exact ⟨by decide, by decide⟩

/-- C5 (amended): for a cataloged named position whose topic has **no
recorded last-published state yet**, and with the publish sink resolving,
invoking `publishState` twice in a row with the same computed state results
in exactly one publish call, and with two different computed states in
exactly two publish calls. -/
theorem C5_publish_dedup (env : Env) (st : SMState) (pos : Position) (b1 b2 : Char)
    (byteI bitI : Nat) (content now1 now2 : List Char)
    (hname : hasName pos.name = true)
    (hfresh : alookup st.lastPublishedStates pos.topic = none)
    (hsink : ∀ p : Payload, env.sink pos.topic p = true) :
    (mapBinaryValue b1 pos.inverted = mapBinaryValue b2 pos.inverted →
      ((publishState env st pos b1 byteI bitI content now1).pubs ++
        (publishState env (publishState env st pos b1 byteI bitI content now1).st
          pos b2 byteI bitI content now2).pubs).length = 1) ∧
    (mapBinaryValue b1 pos.inverted ≠ mapBinaryValue b2 pos.inverted →
      ((publishState env st pos b1 byteI bitI content now1).pubs ++
        (publishState env (publishState env st pos b1 byteI bitI content now1).st
          pos b2 byteI bitI content now2).pubs).length = 2) := by
  have hfresh1 : ¬(alookup st.lastPublishedStates pos.topic =
      some (mapBinaryValue b1 pos.inverted)) := by
    rw [hfresh]; simp
  have h1 := publishState_fresh env st pos b1 byteI bitI content now1 hname hfresh1 hsink
  have hlook : alookup
      (publishState env st pos b1 byteI bitI content now1).st.lastPublishedStates
      pos.topic = some (mapBinaryValue b1 pos.inverted) := by
    rw [h1.2]
    exact alookup_ainsert_self _ _ _
  constructor
  · intro heq
    have h2 := publishState_dedup env
      (publishState env st pos b1 byteI bitI content now1).st pos b2 byteI bitI
      content now2 (by rw [← heq]; exact hlook)
    rw [List.length_append, h1.1, h2]
    rfl
  · intro hne
    have hfresh2 : ¬(alookup
        (publishState env st pos b1 byteI bitI content now1).st.lastPublishedStates
        pos.topic = some (mapBinaryValue b2 pos.inverted)) := by
      rw [hlook]
      intro hcon
      exact hne (Option.some.inj hcon)
    have h2 := publishState_fresh env
      (publishState env st pos b1 byteI bitI content now1).st pos b2 byteI bitI
      content now2 hname hfresh2 hsink
    rw [List.length_append, h1.1, h2.1]

/-- Witness for C5, same state twice (`'1'` then `'1'`, not inverted) and
different states (`'1'` then `'0'`), from a fresh topic. -/
theorem C5_publish_dedup_witness :
    ((publishState ⟨false, fun _ _ => true⟩ ⟨[], []⟩
        ⟨("0x10").data, some (("Sensor").data), ("S").data, ("mk").data,
          ("t5").data, ("Flur").data, false⟩ '1' 2 0 (("MB").data) (("T1").data)).pubs ++
      (publishState ⟨false, fun _ _ => true⟩
        (publishState ⟨false, fun _ _ => true⟩ ⟨[], []⟩
          ⟨("0x10").data, some (("Sensor").data), ("S").data, ("mk").data,
            ("t5").data, ("Flur").data, false⟩ '1' 2 0 (("MB").data) (("T1").data)).st
        ⟨("0x10").data, some (("Sensor").data), ("S").data, ("mk").data,
          ("t5").data, ("Flur").data, false⟩ '1' 2 0 (("MB").data)
        (("T2").data)).pubs).length = 1 := by
  exact (C5_publish_dedup ⟨false, fun _ _ => true⟩ ⟨[], []⟩
    ⟨("0x10").data, some (("Sensor").data), ("S").data, ("mk").data,
      ("t5").data, ("Flur").data, false⟩ '1' '1' 2 0 (("MB").data) (("T1").data)
    (("T2").data) (by decide) (by decide) (fun _ => rfl)).1 rfl

/-! ## Claim C9 -/

/-- C9: for a position whose catalog entry lacks a (nonempty) name,
`publishState` makes no publish call and leaves the whole state — in
particular the `lastPublishedStates` dedup map — unchanged; at most one
discovery log entry is emitted, and only when discovery mode is enabled. -/
theorem C9_unnamed_never_published (env : Env) (st : SMState) (pos : Position)
    (bitValue : Char) (byteI bitI : Nat) (content now : List Char)
    (hname : hasName pos.name = false) :
    (publishState env st pos bitValue byteI bitI content now).pubs = [] ∧
    (publishState env st pos bitValue byteI bitI content now).st = st ∧
    (publishState env st pos bitValue byteI bitI content now).st.lastPublishedStates =
      st.lastPublishedStates ∧
    (publishState env st pos bitValue byteI bitI content now).discs.length ≤ 1 ∧
    ((publishState env st pos bitValue byteI bitI content now).discs ≠ [] →
      env.discover = true) := by
  unfold publishState
  by_cases hdedup : alookup st.lastPublishedStates pos.topic =
      some (mapBinaryValue bitValue pos.inverted)
  · rw [if_pos hdedup]
    exact ⟨rfl, rfl, rfl, by simp, by simp⟩
  · rw [if_neg hdedup, hname]
    simp only [Bool.not_false, Bool.and_true, Bool.false_eq_true, if_false]
    refine ⟨trivial, trivial, trivial, ?_, ?_⟩
    · by_cases hd : env.discover = true <;> simp [hd]
    · by_cases hd : env.discover = true <;> simp [hd]

/-- Witness for C9: a nameless position with a fresh topic and discovery
enabled. -/
theorem C9_unnamed_never_published_witness :
    (publishState ⟨true, fun _ _ => true⟩ ⟨[], []⟩
      ⟨("0x10").data, none, ("").data, ("mk").data, ("t9").data, ("Flur").data, false⟩
      '1' 2 0 (("MB").data) (("T1").data)).pubs = [] ∧
    (publishState ⟨true, fun _ _ => true⟩ ⟨[], []⟩
      ⟨("0x10").data, none, ("").data, ("mk").data, ("t9").data, ("Flur").data, false⟩
      '1' 2 0 (("MB").data) (("T1").data)).st = ⟨[], []⟩ ∧
    (publishState ⟨true, fun _ _ => true⟩ ⟨[], []⟩
      ⟨("0x10").data, none, ("").data, ("mk").data, ("t9").data, ("Flur").data, false⟩
      '1' 2 0 (("MB").data) (("T1").data)).st.lastPublishedStates = [] ∧
    (publishState ⟨true, fun _ _ => true⟩ ⟨[], []⟩
      ⟨("0x10").data, none, ("").data, ("mk").data, ("t9").data, ("Flur").data, false⟩
      '1' 2 0 (("MB").data) (("T1").data)).discs.length ≤ 1 ∧
    ((publishState ⟨true, fun _ _ => true⟩ ⟨[], []⟩
      ⟨("0x10").data, none, ("").data, ("mk").data, ("t9").data, ("Flur").data, false⟩
      '1' 2 0 (("MB").data) (("T1").data)).discs ≠ [] →
      (⟨true, fun _ _ => true⟩ : Env).discover = true) :=
  C9_unnamed_never_published ⟨true, fun _ _ => true⟩ ⟨[], []⟩
    ⟨("0x10").data, none, ("").data, ("mk").data, ("t9").data, ("Flur").data, false⟩
    '1' 2 0 (("MB").data) (("T1").data) (by decide)

/-! ## Claim C4 -/

theorem publishState_topic (env : Env) (st : SMState) (pos : Position) (b : Char)
    (byteI bitI : Nat) (content now : List Char) :
    ∀ pub ∈ (publishState env st pos b byteI bitI content now).pubs,
      pub.topic = pos.topic := by
  intro pub hpub
  unfold publishState at hpub
  by_cases h1 : alookup st.lastPublishedStates pos.topic =
      some (mapBinaryValue b pos.inverted)
  · rw [if_pos h1] at hpub
    simp at hpub
  · rw [if_neg h1] at hpub
    simp only [apply_ite PSResult.pubs, ite_self] at hpub
    split at hpub
    · simp at hpub
      rw [hpub]
    · simp at hpub

theorem pscLoop_topics (env : Env) (nb ob : List Char) (byteI : Nat)
    (content now : List Char) :
    ∀ (l : List Position) (st : SMState) (pub : Pub),
      pub ∈ (pscLoop env nb ob byteI content now l st).pubs →
      ∃ pos, pos ∈ l ∧ pub.topic = pos.topic := by
  intro l
  induction l with
  | nil =>
    intro st pub h
    simp [pscLoop] at h
  | cons pos rest ih =>
    intro st pub h
    unfold pscLoop at h
    dsimp only at h
    split at h
    · simp only [List.mem_append] at h
      rcases h with h | h
      · exact ⟨pos, List.mem_cons_self pos rest,
          publishState_topic env st pos _ byteI _ content now pub h⟩
      · obtain ⟨p2, hp2, he⟩ := ih _ pub h
        exact ⟨p2, List.mem_cons_of_mem _ hp2, he⟩
    · obtain ⟨p2, hp2, he⟩ := ih st pub h
      exact ⟨p2, List.mem_cons_of_mem _ hp2, he⟩

theorem processStateChanges_topics (env : Env) (st : SMState) (newV oldV byteI : Nat)
    (positions : List Position) (content now : List Char) :
    ∀ pub ∈ (processStateChanges env st newV oldV byteI positions content now).pubs,
      ∃ pos, pos ∈ positions ∧
        (match jsParseIntHex pos.hex with
         | some n => byteI * 8 ≤ n ∧ n < (byteI + 1) * 8
         | none => False) ∧ pub.topic = pos.topic := by
  intro pub h
  unfold processStateChanges at h
  obtain ⟨pos, hmem, he⟩ := pscLoop_topics env _ _ byteI content now _ st pub h
  unfold relevantPositions at hmem
  have hmem2 := List.mem_filter.mp hmem
  refine ⟨pos, hmem2.1, ?_, he⟩
  have hcond := hmem2.2
  cases hp : jsParseIntHex pos.hex with
  | none => rw [hp] at hcond; simp at hcond
  | some n =>
    rw [hp] at hcond
    simp only [Bool.and_eq_true, decide_eq_true_eq] at hcond
    exact hcond

theorem hscLoop_nochange (env : Env) (prevBytes : List Nat) (positions : List Position)
    (content now : List Char) :
    ∀ (l : List Nat) (i : Nat) (st : SMState),
      (∀ k, l.get? k = prevBytes.get? (i + k)) →
      hscLoop env prevBytes positions content now i l st = ⟨st, [], [], []⟩ := by
  intro l
  induction l with
  | nil => intro i st _; rfl
  | cons v rest ih =>
    intro i st h
    have h0 : prevBytes.get? i = some v := by
      have h00 := h 0
      rw [List.get?_cons_zero, Nat.add_zero] at h00
      exact h00.symm
    unfold hscLoop
    rw [if_pos h0]
    exact ih (i + 1) st (fun k => by
      have hk := h (k + 1)
      rw [List.get?_cons_succ, show i + (k + 1) = (i + 1) + k from by omega] at hk
      exact hk)

/-- Running the changed-byte loop on snapshots that agree except at byte
index 2 (positions 0 and 1 equal, tails pointwise equal) performs exactly
the byte-2 `processStateChanges` call. -/
theorem hscLoop_single_change (env : Env) (positions : List Position)
    (content now : List Char) (a b p2 n2 : Nat) (pr nr : List Nat) (st : SMState)
    (hne : ¬(p2 = n2)) (hrest : ∀ k, nr.get? k = pr.get? k) :
    hscLoop env (a :: b :: p2 :: pr) positions content now 0 (a :: b :: n2 :: nr) st =
      ⟨(processStateChanges env st n2 p2 2 positions content now).st,
       (processStateChanges env st n2 p2 2 positions content now).pubs,
       (processStateChanges env st n2 p2 2 positions content now).discs,
       [2]⟩ := by
  have htail : ∀ stx : SMState,
      hscLoop env (a :: b :: p2 :: pr) positions content now (0 + 1 + 1 + 1) nr stx =
        ⟨stx, [], [], []⟩ := by
    intro stx
    exact hscLoop_nochange env (a :: b :: p2 :: pr) positions content now nr
      (0 + 1 + 1 + 1) stx
      (fun k => by
        rw [show (0 + 1 + 1 + 1) + k = k + 3 from by omega]
        exact hrest k)
  have hcond : ¬((a :: b :: p2 :: pr).get? (0 + 1 + 1) = some n2) :=
    fun hcon => hne (Option.some.inj hcon)
  have c0 : (a :: b :: p2 :: pr).get? 0 = some a := rfl
  have c1 : (a :: b :: p2 :: pr).get? (0 + 1) = some b := rfl
  unfold hscLoop
  rw [if_pos c0]
  unfold hscLoop
  rw [if_pos c1]
  unfold hscLoop
  rw [if_neg hcond]
  dsimp only
  rw [htail]
  simp

/-- C4: for an already-seen content area whose new byte map differs from
the previous snapshot exactly at byte index 2, the changed branch of
`handleStateChange` fires for byte 2 only; the positions re-evaluated for
that byte are exactly those whose parsed bit address lies in `[16, 24)`;
and every publish goes to the topic of such a position — a position whose
bit lies in an unchanged byte is never re-emitted. -/
theorem C4_changed_byte_scoping (env : Env) (st : SMState)
    (prevBytes newBytes : List Nat) (positions : List Position)
    (content now : List Char)
    (hseen : alookup st.statesPrevious content = some prevBytes)
    (hlen : newBytes.length = prevBytes.length)
    (hsame : ∀ j, j ≠ 2 → newBytes.get? j = prevBytes.get? j)
    (hdiff : newBytes.get? 2 ≠ prevBytes.get? 2) :
    (handleStateChange env st newBytes content positions now).changedBytes = [2] ∧
    relevantPositions positions 2 = positions.filter (fun pos =>
      match jsParseIntHex pos.hex with
      | some n => decide (16 ≤ n) && decide (n < 24)
      | none => false) ∧
    ∀ pub ∈ (handleStateChange env st newBytes content positions now).pubs,
      ∃ pos, pos ∈ positions ∧
        (match jsParseIntHex pos.hex with
         | some n => 16 ≤ n ∧ n < 24
         | none => False) ∧ pub.topic = pos.topic := by
  have hlen3 : 3 ≤ newBytes.length := by
    by_contra hcon
    push_neg at hcon
    have h1 : newBytes.get? 2 = none := List.get?_eq_none.mpr (by omega)
    have h2 : prevBytes.get? 2 = none := List.get?_eq_none.mpr (by omega)
    exact hdiff (h1.trans h2.symm)
  rcases newBytes with _ | ⟨n0, _ | ⟨n1, _ | ⟨n2, nr⟩⟩⟩ <;>
    simp only [List.length_nil, List.length_cons] at hlen3 hlen <;> try omega
  rcases prevBytes with _ | ⟨p0, _ | ⟨p1, _ | ⟨p2, pr⟩⟩⟩ <;>
    simp only [List.length_nil, List.length_cons] at hlen <;> try omega
  have e0 : n0 = p0 := by
    have h0 := hsame 0 (by omega)
    simpa using h0
  have e1 : n1 = p1 := by
    have h1 := hsame 1 (by omega)
    simpa using h1
  subst e0
  subst e1
  have hne : ¬(p2 = n2) := by
    intro hc
    apply hdiff
    simp [hc]
  have hrest : ∀ k, nr.get? k = pr.get? k := by
    intro k
    have hk := hsame (k + 3) (by omega)
    simpa using hk
  have hrun := hscLoop_single_change env positions content now n0 n1 p2 n2 pr nr st hne hrest
  refine ⟨?_, ?_, ?_⟩
  · unfold handleStateChange
    rw [hseen]
    dsimp only
    rw [hrun]
  · rfl
  · intro pub hpub
    unfold handleStateChange at hpub
    rw [hseen] at hpub
    dsimp only at hpub
    rw [hrun] at hpub
    dsimp only at hpub
    exact processStateChanges_topics env st n2 p2 2 positions content now pub hpub

def c4wEnv : Env := ⟨false, fun _ _ => true⟩

/-- One position inside byte 2 (bit address 16) and one outside (bit
address 2). -/
def c4wPositions : List Position :=
  [⟨("0x10").data, some (("Sensor A").data), ("A").data, ("mk").data,
     ("tA").data, ("Flur").data, true⟩,
   ⟨("0x02").data, some (("Sensor B").data), ("B").data, ("mk").data,
     ("tB").data, ("Flur").data, false⟩]

def c4wSt : SMState := ⟨[((("MB").data), [0, 0, 5])], []⟩

/-- Witness for C4: snapshots `[0,0,5] → [0,0,1]` differ only at byte 2. -/
theorem C4_changed_byte_scoping_witness :
    (handleStateChange c4wEnv c4wSt [0, 0, 1] (("MB").data) c4wPositions
      (("T").data)).changedBytes = [2] ∧
    relevantPositions c4wPositions 2 = c4wPositions.filter (fun pos =>
      match jsParseIntHex pos.hex with
      | some n => decide (16 ≤ n) && decide (n < 24)
      | none => false) ∧
    ∀ pub ∈ (handleStateChange c4wEnv c4wSt [0, 0, 1] (("MB").data) c4wPositions
        (("T").data)).pubs,
      ∃ pos, pos ∈ c4wPositions ∧
        (match jsParseIntHex pos.hex with
         | some n => 16 ≤ n ∧ n < 24
         | none => False) ∧ pub.topic = pos.topic := by
  refine C4_changed_byte_scoping c4wEnv c4wSt [0, 0, 5] [0, 0, 1] c4wPositions
    (("MB").data) (("T").data) (by decide) rfl ?_ (by decide)
  intro j hj
  rcases j with _ | _ | _ | k
  · rfl
  · rfl
  · exact absurd rfl hj
  · rfl

/-! ## `parseData` effects (`SocketHandler.mjs`) — claim C8 -/

/-- Observable effects of one `parseData` call: the new value of the
shared `readyToSendData` flag, the new virtual-night-mode flag, the
content areas decoded, and the MQTT topics published to.  Every branch
returns the fixed `CONF_ACK` response, so the response is not recorded. -/
structure ParseEffects where
  flag : Bool
  vnm : Bool
  decodes : List (List Char)
  pubTopics : List (List Char)
  deriving DecidableEq, Repr

/-- `config.Connection.mqttConfig.stateTopic` (default). -/
def stateTopic : List Char := ("telenot/alarm/state").data

/-- `config.Connection.mqttConfig.diagnosticsTopic`. -/
def diagnosticsTopic : List Char := ("telenot/alarm/diagnostics").data

/-- The `switch (msgType)` of `SocketHandler.parseData`, as a function of
the classified message type and the current flags.  Only `CONF_ACK` and
`SB` touch `readyToSendData`; only `SYS_DISARMED` resets the virtual
modes; the default branch (INVALID, SEND_NDAT) only logs. -/
def parseDataStep (t : MsgType) (flag vnm : Bool) : ParseEffects :=
  match t with
  | .SEND_NORM => ⟨flag, vnm, [], []⟩
  | .CONF_ACK => ⟨false, vnm, [], []⟩
  | .MP => ⟨flag, vnm, [("MELDEGRUPPEN").data], []⟩
  | .SB => ⟨true, vnm, [("MELDEBEREICHE").data], []⟩
  | .SYS_INT_ARMED => ⟨flag, vnm, [], [stateTopic, diagnosticsTopic ++ ("/state").data]⟩
  | .SYS_DISARMED => ⟨flag, false, [], [stateTopic, diagnosticsTopic ++ ("/state").data]⟩
  | .SYS_EXT_ARMED => ⟨flag, vnm, [], [stateTopic, diagnosticsTopic ++ ("/state").data]⟩
  | .ALARM => ⟨flag, vnm, [], [stateTopic, diagnosticsTopic ++ ("/alarm").data]⟩
  | .INTRUSION => ⟨flag, vnm, [], [diagnosticsTopic ++ ("/intrusion").data]⟩
  | .BATTERY_MALFUNCTION => ⟨flag, vnm, [], [diagnosticsTopic ++ ("/battery").data]⟩
  | .POWER_OUTAGE => ⟨flag, vnm, [], [diagnosticsTopic ++ ("/power").data]⟩
  | .OPTICAL_FLASHER_MALFUNCTION =>
    ⟨flag, vnm, [], [diagnosticsTopic ++ ("/flasher").data]⟩
  | .HORN_1_MALFUNCTION => ⟨flag, vnm, [], [diagnosticsTopic ++ ("/horn1").data]⟩
  | .HORN_2_MALFUNCTION => ⟨flag, vnm, [], [diagnosticsTopic ++ ("/horn2").data]⟩
  | .COM_FAULT => ⟨flag, vnm, [], [diagnosticsTopic ++ ("/communication").data]⟩
  | .RESTART => ⟨flag, vnm, [], [diagnosticsTopic ++ ("/restart").data]⟩
  | .INVALID => ⟨flag, vnm, [], []⟩
  | .SEND_NDAT => ⟨flag, vnm, [], []⟩

/-- `parseData(hexStr)`: classify the hex string, then run the switch. -/
def parseDataModel (s : List Char) (flag vnm : Bool) : ParseEffects :=
  parseDataStep (getMsgType s) flag vnm

/-- C8: `parseData` mutates `readyToSendData` on exactly two frame types —
an `SB` frame sets it to `true` and a `CONF_ACK` frame sets it to `false`;
every other classification (SEND_NORM, MP, system-state, alarm,
malfunction, RESTART, SEND_NDAT, INVALID) leaves the flag unchanged. -/
theorem C8_ready_flag_effects (s : List Char) (flag vnm : Bool) :
    (parseDataModel s flag vnm).flag =
      (if getMsgType s = .SB then true
       else if getMsgType s = .CONF_ACK then false
       else flag) := by
  unfold parseDataModel
  cases h : getMsgType s <;> simp [parseDataStep]

/-! ## Virtual state and command handling — claim C10 -/

/-- `VirtualStateHandler.mapToInternalState(command)`: sets the virtual
night flag (unconditionally — `true` for `ARM_NIGHT`, `false` otherwise)
and returns the internal command. -/
def mapToInternalState (command : List Char) : Bool × List Char :=
  if command = ("ARM_NIGHT").data then (true, ("ARM_HOME").data)
  else (false, command)

/-- `VirtualStateHandler.mapToExternalState(internalState)`. -/
def mapToExternalState (vnm : Bool) (internalState : List Char) : List Char :=
  if internalState = ("armed_home").data ∧ vnm = true then ("armed_night").data
  else internalState

/-- The area calls `CommandHandler` makes on the Telenot service. -/
inductive TelCall where
  | disarmArea (n : Nat)
  | intArmArea (n : Nat)
  | extArmArea (n : Nat)
  | resetArmArea (n : Nat)
  deriving DecidableEq, Repr

/-- The entries of `CommandHandler._commandMap`. -/
inductive CmdAction where
  | cDisarm | cArmHome | cArmAway | cArmNight | cReset
  deriving DecidableEq, Repr

/-- JS object lookup over the five `_commandMap` keys. -/
def commandMapLookup (internal : List Char) : Option CmdAction :=
  if internal = ("DISARM").data then some .cDisarm
  else if internal = ("ARM_HOME").data then some .cArmHome
  else if internal = ("ARM_AWAY").data then some .cArmAway
  else if internal = ("ARM_NIGHT").data then some .cArmNight
  else if internal = ("RESET").data then some .cReset
  else none

/-- Effect of one `_commandMap` action on the virtual-night flag, plus the
service call it makes: `DISARM` calls `resetVirtualModes()` first; the
`ARM_NIGHT` entry calls `mapToInternalState('ARM_NIGHT')` before
`intArmArea(1)` (unreachable from `handleCommand`, which has already
translated `ARM_NIGHT` to `ARM_HOME`). -/
def runCmdAction (vnm : Bool) : CmdAction → Bool × TelCall
  | .cDisarm => (false, .disarmArea 1)
  | .cArmHome => (vnm, .intArmArea 1)
  | .cArmAway => (vnm, .extArmArea 1)
  | .cArmNight => ((mapToInternalState (("ARM_NIGHT").data)).1, .intArmArea 1)
  | .cReset => (vnm, .resetArmArea 1)

/-- `CommandHandler.handleCommand(command)`: map through
`mapToInternalState` (which overwrites the virtual flag regardless of its
prior value `vnm0`), look the internal command up, run the action.
Returns (new virtual flag, handled?, service call). -/
def handleCommand (_vnm0 : Bool) (command : List Char) : Bool × Bool × Option TelCall :=
  let r := mapToInternalState command
  match commandMapLookup r.2 with
  | some a =>
    let s := runCmdAction r.1 a
    (s.1, true, some s.2)
  | none => (r.1, false, none)

/-- C10: after any `handleCommand(c)` — from any prior flag value — the
virtual night-mode flag is `true` exactly when `c = 'ARM_NIGHT'`; every
other command string, known or unknown, leaves it `false` (set by
`mapToInternalState` before dispatch). -/
theorem C10_virtual_night_iff_arm_night (vnm0 : Bool) (c : List Char) :
    ((handleCommand vnm0 c).1 = true) ↔ c = ("ARM_NIGHT").data := by
  unfold handleCommand mapToInternalState
  by_cases h : c = ("ARM_NIGHT").data
  · simp [h, commandMapLookup, runCmdAction, mapToInternalState]
  · simp only [if_neg h]
    unfold commandMapLookup
    split_ifs with h1 h2 h3 h4
    · simp [runCmdAction, h]
    · simp [runCmdAction, h]
    · simp [runCmdAction, h]
    · simp [runCmdAction, h]
    · simp [h]

/-! ## TCP reconnection (`SocketManager`, `src/unnamed/part_001`) — claim C7 -/

/-- The reconnection-relevant fields of `SocketManager`. -/
structure SocketManagerState where
  reconnectAttempts : Nat
  maxReconnectAttempts : Nat
  hasReconnectTimeout : Bool
  deriving DecidableEq, Repr

/-- What one `handleReconnect` call does besides mutating its fields. -/
inductive ReconnectEffect where
  | scheduleAttempt
  | terminalLog
  deriving DecidableEq, Repr

/-- The state mutation of the retry branch: `reconnectAttempts++`, clear
any pending timeout and store the new one. -/
def bumpAttempts (s : SocketManagerState) : SocketManagerState :=
  { s with reconnectAttempts := s.reconnectAttempts + 1, hasReconnectTimeout := true }

/-- `SocketManager.handleReconnect`: below the cap it increments the
counter, clears any pending timeout, stores a new one (scheduling a
reconnection attempt); at the cap it only logs the terminal
`Max reconnection attempts reached` error. -/
def handleReconnect (s : SocketManagerState) : SocketManagerState × ReconnectEffect :=
  if s.reconnectAttempts < s.maxReconnectAttempts then
    (bumpAttempts s, .scheduleAttempt)
  else
    (s, .terminalLog)

/-- `n` consecutive connection-loss events, each invoking
`handleReconnect` (the socket's `error`, `close` and `timeout` handlers
all call it). -/
def runLossEvents : SocketManagerState → Nat → SocketManagerState × List ReconnectEffect
  | s, 0 => (s, [])
  | s, n + 1 =>
    let r1 := handleReconnect s
    let r2 := runLossEvents r1.1 n
    (r2.1, r1.2 :: r2.2)

def countEffect (e : ReconnectEffect) (l : List ReconnectEffect) : Nat :=
  (l.filter (fun x => x = e)).length

/-- The state at construction: `reconnectAttempts = 0`,
`maxReconnectAttempts = 5`. -/
def initSocketManagerState : SocketManagerState := ⟨0, 5, false⟩

theorem countEffect_cons (e x : ReconnectEffect) (l : List ReconnectEffect) :
    countEffect e (x :: l) = (if x = e then 1 else 0) + countEffect e l := by
  by_cases hx : x = e <;> (simp [countEffect, List.filter_cons, hx]; try omega)

theorem runLossEvents_counts (n : Nat) :
    ∀ s : SocketManagerState, s.maxReconnectAttempts = 5 → s.reconnectAttempts ≤ 5 →
      countEffect .scheduleAttempt (runLossEvents s n).2 =
        min n (5 - s.reconnectAttempts) ∧
      countEffect .terminalLog (runLossEvents s n).2 =
        n - (5 - s.reconnectAttempts) := by
  induction n with
  | zero =>
    intro s hm ha
    simp [runLossEvents, countEffect]
  | succ n ih =>
    intro s hm ha
    have hstep : (runLossEvents s (n + 1)).2 =
        (handleReconnect s).2 :: (runLossEvents (handleReconnect s).1 n).2 := rfl
    by_cases h : s.reconnectAttempts < s.maxReconnectAttempts
    · have hh : handleReconnect s = (bumpAttempts s, ReconnectEffect.scheduleAttempt) := by
        unfold handleReconnect
        rw [if_pos h]
      obtain ⟨ih1, ih2⟩ := ih (bumpAttempts s) (by simp [bumpAttempts, hm])
        (by simp [bumpAttempts]; omega)
      rw [hstep, hh]
      dsimp only
      refine ⟨?_, ?_⟩
      · rw [countEffect_cons, ih1, if_pos rfl]
        simp only [bumpAttempts]
        omega
      · rw [countEffect_cons, ih2, if_neg (by decide)]
        simp only [bumpAttempts]
        omega
    · have hh : handleReconnect s = (s, .terminalLog) := by
        unfold handleReconnect
        rw [if_neg h]
      obtain ⟨ih1, ih2⟩ := ih s hm ha
      rw [hstep, hh]
      dsimp only
      refine ⟨?_, ?_⟩
      · rw [countEffect_cons, ih1, if_neg (by decide)]
        omega
      · rw [countEffect_cons, ih2, if_pos rfl]
        omega

theorem runLossEvents_capped (m : Nat) :
    ∀ s : SocketManagerState, s.maxReconnectAttempts ≤ s.reconnectAttempts →
      countEffect .scheduleAttempt (runLossEvents s m).2 = 0 := by
  induction m with
  | zero =>
    intro s _
    simp [runLossEvents, countEffect]
  | succ m ih =>
    intro s hs
    have hstep : (runLossEvents s (m + 1)).2 =
        (handleReconnect s).2 :: (runLossEvents (handleReconnect s).1 m).2 := rfl
    have hh : handleReconnect s = (s, .terminalLog) := by
      unfold handleReconnect
      rw [if_neg (by omega)]
    rw [hstep, hh]
    dsimp only
    rw [countEffect_cons, ih s hs, if_neg (by decide)]

/-- C7 counterexample: starting from the fresh TCP transport state, seven
consecutive connection-loss events schedule five reconnection attempts and
log the terminal `max reconnection attempts reached` failure **twice** —
once per post-cap loss event — not exactly once. -/
theorem C7_claim_counterexample :
    countEffect .terminalLog (runLossEvents initSocketManagerState 7).2 = 2 ∧
    (2 : Nat) ≠ 1 := by
  exact ⟨by decide, by decide⟩

/-- C7 (amended): after `maxAttempts = 5` loss events the counter reaches
the cap and no further automatic reconnection attempt is ever scheduled;
each connection-loss event observed past the cap logs the terminal failure
once more, so `n ≥ 5` loss events produce exactly 5 scheduled attempts and
`n − 5` terminal-failure log lines (once per further event, not exactly
once overall). -/
theorem C7_reconnect_cap (n : Nat) (hn : 5 ≤ n) :
    countEffect .scheduleAttempt (runLossEvents initSocketManagerState n).2 = 5 ∧
    countEffect .terminalLog (runLossEvents initSocketManagerState n).2 = n - 5 ∧
    ∀ (s : SocketManagerState) (m : Nat),
      s.maxReconnectAttempts ≤ s.reconnectAttempts →
      countEffect .scheduleAttempt (runLossEvents s m).2 = 0 := by
  obtain ⟨h1, h2⟩ := runLossEvents_counts n initSocketManagerState rfl (by decide)
  refine ⟨?_, ?_, ?_⟩
  · rw [h1]
    show min n (5 - (0 : Nat)) = 5
    omega
  · rw [h2]
    show n - (5 - (0 : Nat)) = n - 5
    omega
  · intro s m hs
    exact runLossEvents_capped m s hs

/-- Witness for C7 at `n = 7`, with the no-reschedule part evaluated at a
capped state. -/
theorem C7_reconnect_cap_witness :
    countEffect .scheduleAttempt (runLossEvents initSocketManagerState 7).2 = 5 ∧
    countEffect .terminalLog (runLossEvents initSocketManagerState 7).2 = 7 - 5 ∧
    countEffect .scheduleAttempt (runLossEvents ⟨5, 5, true⟩ 4).2 = 0 :=
  ⟨(C7_reconnect_cap 7 (by omega)).1, (C7_reconnect_cap 7 (by omega)).2.1,
    (C7_reconnect_cap 7 (by omega)).2.2 ⟨5, 5, true⟩ 4 (by decide)⟩
